import Mathlib

/-!
Model of the `debat_AI` frontend topics-list component
(`topics-list.component.ts`) together with the data shapes of `models.ts`.

The component state, the browser-local storage (a string-to-string store),
the router interaction (recorded as a log of requested navigations) and the
JSON encoding of the per-debate selection-counter map are embedded as
executable Lean definitions, and the behaviour of `ngOnInit`, `setViewMode`,
`openSetup`, `closeSetup` and `startDebate` is proved against them.

`JSON.parse` / `JSON.stringify`, as used on the counter map, are modelled by
`parseCounts` / `stringifyCounts` over the canonical whitespace-free object
form that `JSON.stringify` emits, with numeric keys and numeric values; a
failure of `parseCounts` models the `SyntaxError` that `JSON.parse` throws,
and `Except JsError` propagates it the way an uncaught exception would.
-/

namespace DebatAI

/-- Wire shape of a debate topic, from `models.ts`. -/
structure Debate where
  id : Nat
  topic : String
deriving DecidableEq

/-- Wire shape of a chat message, from `models.ts`; declared but unused by the
component. -/
structure Message where
  id : Nat
  content : String
  user_id : Nat
  debate_id : Nat
  username : String
deriving DecidableEq

/-- A debate as held in the component's `debates` list: the fetched record
plus the `selectionCount` attached at enrichment time. -/
structure EnrichedDebate where
  id : Nat
  topic : String
  selectionCount : Nat
deriving DecidableEq

/-- The two values of the component's `viewMode` field. -/
inductive ViewMode
  | grid
  | list
deriving DecidableEq

/-- One segment of a router path, as in `navigate(['/debates', id])`: either a
string literal or a numeric id. -/
inductive RouteSeg
  | str : String → RouteSeg
  | num : Nat → RouteSeg
deriving DecidableEq

/-- The one runtime error the component can hit: `JSON.parse` throwing on a
malformed stored counter map. -/
inductive JsError
  | parseError
deriving DecidableEq

/-- The parsed counter map, keyed by debate id.  JS objects have unique keys;
the operations below keep keys unique, and lookup takes the first match. -/
abbrev CounterMap := List (Nat × Nat)

/-- `counts[debateId] || 0`: the stored count of a key, defaulting to 0. -/
def lookupCount (m : CounterMap) (k : Nat) : Nat :=
  match m with
  | [] => 0
  | (k', v) :: rest => if k' = k then v else lookupCount rest k

/-- `counts[debateId] = v`: set one key of the map, replacing any existing
binding. -/
def setCount (m : CounterMap) (k v : Nat) : CounterMap :=
  match m with
  | [] => [(k, v)]
  | (k', v') :: rest => if k' = k then (k, v) :: rest else (k', v') :: setCount rest k v

/-- The decimal digit character of `d` (callers keep `d` below 10; the
catch-all keeps the function total). -/
def digitToChar : Nat → Char
  | 0 => '0'
  | 1 => '1'
  | 2 => '2'
  | 3 => '3'
  | 4 => '4'
  | 5 => '5'
  | 6 => '6'
  | 7 => '7'
  | 8 => '8'
  | _ => '9'

/-- The numeric value of a decimal digit character. -/
def charToDigit (c : Char) : Nat := c.toNat - 48

/-- Decimal digit characters of `n`, most significant first; the first
argument is structural fuel (any bound at least `n` works). -/
def natToCharsAux : Nat → Nat → List Char
  | 0, _ => []
  | _ + 1, 0 => []
  | fuel + 1, n + 1 => natToCharsAux fuel ((n + 1) / 10) ++ [digitToChar ((n + 1) % 10)]

/-- Decimal rendering of a natural number as a character list, as JS renders
a nonnegative integer. -/
def natToChars (n : Nat) : List Char :=
  if n = 0 then ['0'] else natToCharsAux n n

/-- Decimal rendering of a natural number as a string (the template-literal
and `JSON.stringify` rendering of a nonnegative integer). -/
def natToString (n : Nat) : String := String.mk (natToChars n)

/-- Split a character list into its maximal leading digit run and the rest. -/
def splitDigits : List Char → List Char × List Char
  | [] => ([], [])
  | c :: cs =>
    if c.isDigit then (c :: (splitDigits cs).1, (splitDigits cs).2)
    else ([], c :: cs)

/-- The number denoted by a digit run (most significant first). -/
def charsToNat (ds : List Char) : Nat :=
  ds.foldl (fun a c => a * 10 + charToDigit c) 0

/-- Read one JSON number (a nonnegative integer; JSON forbids leading zeros)
from the front of the input. -/
def parseNatToken (cs : List Char) : Option (Nat × List Char) :=
  match splitDigits cs with
  | ([], _) => none
  | ([d], rest) => some (charToDigit d, rest)
  | (d :: d' :: ds, rest) =>
    if d = '0' then none else some (charsToNat (d :: d' :: ds), rest)

/-- Read one `"key":value` member of the counter object. -/
def parseEntry (cs : List Char) : Option ((Nat × Nat) × List Char) :=
  match cs with
  | '"' :: cs1 =>
    match parseNatToken cs1 with
    | some (k, '"' :: ':' :: cs2) =>
      match parseNatToken cs2 with
      | some (v, cs3) => some ((k, v), cs3)
      | none => none
    | _ => none
  | _ => none

/-- Read the comma-separated members of a nonempty counter object up to and
including the closing brace; structural fuel bounds the number of members. -/
def parseEntriesAux : Nat → List Char → Option (CounterMap × List Char)
  | 0, _ => none
  | fuel + 1, cs =>
    match parseEntry cs with
    | none => none
    | some (e, cs1) =>
      match cs1 with
      | '}' :: rest => some ([e], rest)
      | ',' :: rest =>
        match parseEntriesAux fuel rest with
        | none => none
        | some (m, cs2) => some (e :: m, cs2)
      | _ => none

/-- Model of `JSON.parse` applied to the stored counter map: succeeds exactly
on the canonical whitespace-free object form with numeric keys and values,
`none` modelling the thrown `SyntaxError` (or a non-object result). -/
def parseCounts (s : String) : Option CounterMap :=
  match s.toList with
  | '{' :: cs =>
    if cs = ['}'] then some []
    else
      match parseEntriesAux (cs.length + 1) cs with
      | some (m, []) => some m
      | _ => none
  | _ => none

/-- One `"key":value` member in `JSON.stringify` form. -/
def stringifyEntry (e : Nat × Nat) : List Char :=
  '"' :: (natToChars e.1 ++ ('"' :: (':' :: natToChars e.2)))

/-- The comma-separated members of the counter object. -/
def stringifyEntries : CounterMap → List Char
  | [] => []
  | [e] => stringifyEntry e
  | e :: e' :: rest => stringifyEntry e ++ (',' :: stringifyEntries (e' :: rest))

/-- Model of `JSON.stringify` applied to the counter map. -/
def stringifyCounts (m : CounterMap) : String :=
  String.mk ('{' :: (stringifyEntries m ++ ['}']))

/-- Browser local storage: a total map from keys to optionally-present string
values (`getItem` returns `null` for an absent key). -/
def LocalStorage := String → Option String

/-- `localStorage.setItem(k, v)`. -/
def setItem (k v : String) (st : LocalStorage) : LocalStorage :=
  fun k' => if k' = k then some v else st k'

/-- A storage with no keys set. -/
def emptyStorage : LocalStorage := fun _ => none

/-- The component state together with the ambient local storage and the log
of navigations requested from the router. -/
structure App where
  debates : List EnrichedDebate
  viewMode : ViewMode
  selectedDebate : Option EnrichedDebate
  debaterA : String
  debaterB : String
  storage : LocalStorage
  navLog : List (List RouteSeg)

/-- `getDebateCounts()`: reads the `debateCounts` key and parses it.  The JS
source runs `counts ? JSON.parse(counts) : \x7b\x7d`, so an absent key or an
empty string (both falsy) give the empty map, while `JSON.parse` of any other
unparsable value throws, modelled by the error result. -/
def getDebateCounts (st : LocalStorage) : Except JsError CounterMap :=
  match st "debateCounts" with
  | none => .ok []
  | some s =>
    if s = "" then .ok []
    else
      match parseCounts s with
      | some m => .ok m
      | none => .error .parseError

/-- Reading the stored counter of one debate id back out of storage (the
observation the testable properties are phrased in terms of). -/
def readCount (st : LocalStorage) (debateId : Nat) : Except JsError Nat :=
  match getDebateCounts st with
  | .error e => .error e
  | .ok m => .ok (lookupCount m debateId)

/-- `this.debates.find(d => d.id === debateId)` followed by the in-place
`debate.selectionCount = c`: update the first entry with the given id, if
any. -/
def updateFirstCount : List EnrichedDebate → Nat → Nat → List EnrichedDebate
  | [], _, _ => []
  | d :: ds, debateId, c =>
    if d.id = debateId then { d with selectionCount := c } :: ds
    else d :: updateFirstCount ds debateId c

/-- `incrementDebateCount(debateId)`: read-modify-write of the stored counter
map, then reflect the new count into the in-memory list entry. -/
def incrementDebateCount (debateId : Nat) (app : App) : Except JsError App :=
  match getDebateCounts app.storage with
  | .error e => .error e
  | .ok counts =>
    .ok { app with
      storage := setItem "debateCounts"
        (stringifyCounts (setCount counts debateId (lookupCount counts debateId + 1)))
        app.storage,
      debates := updateFirstCount app.debates debateId (lookupCount counts debateId + 1) }

/-- `openSetup(debate)`: select the debate, then increment its counter.  (The
JS list entry and the selected debate can alias; nothing reads
`selectionCount` through `selectedDebate`, so the model keeps the argument
as passed.) -/
def openSetup (debate : EnrichedDebate) (app : App) : Except JsError App :=
  incrementDebateCount debate.id { app with selectedDebate := some debate }

/-- `closeSetup()`. -/
def closeSetup (app : App) : App := { app with selectedDebate := none }

/-- `setViewMode(mode)`. -/
def setViewMode (mode : ViewMode) (app : App) : App := { app with viewMode := mode }

/-- JS string trimming, `s.trim()`: strip leading and trailing whitespace. -/
def jsTrim (s : String) : String :=
  String.mk (((s.toList.dropWhile Char.isWhitespace).reverse.dropWhile
    Char.isWhitespace).reverse)

/-- Lexicographic comparison of character lists by code unit, the order the
default (comparator-free) JS `Array.prototype.sort` applies to strings. -/
def charListLt : List Char → List Char → Bool
  | _, [] => false
  | [], _ :: _ => true
  | a :: as, b :: bs => if a < b then true else if b < a then false else charListLt as bs

/-- JS default string comparison, `String(a) < String(b)` by code units. -/
def strLtJS (a b : String) : Bool := charListLt a.toList b.toList

/-- `[a, b].sort()` for two strings: swap exactly when the second sorts
strictly before the first. -/
def sortPair (a b : String) : List String :=
  if strLtJS b a then [b, a] else [a, b]

/-- `arr.join(sep)` specialised to the underscore separator of the session
id. -/
def joinUnderscore : List String → String
  | [] => ""
  | [s] => s
  | s :: s' :: rest => s ++ "_" ++ joinUnderscore (s' :: rest)

/-- `startDebate()`: no-op unless a debate is selected and both names are
nonempty after trimming; otherwise persist the five session keys and ask the
router for `['/debates', id]`. -/
def startDebate (app : App) : App :=
  match app.selectedDebate with
  | none => app
  | some sel =>
    if jsTrim app.debaterA = "" ∨ jsTrim app.debaterB = "" then app
    else
      { app with
        storage := setItem "currentSessionId"
          (natToString sel.id ++ "_" ++ joinUnderscore (sortPair app.debaterA app.debaterB))
          (setItem "debateTopic" sel.topic
            (setItem "username" app.debaterA
              (setItem "debaterB" app.debaterB
                (setItem "debaterA" app.debaterA app.storage)))),
        navLog := app.navLog ++ [[RouteSeg.str "/debates", RouteSeg.num sel.id]] }

/-- The enrichment step of `ngOnInit`'s subscribe callback: attach each
fetched debate's stored count (defaulting to 0). -/
def enrichDebates (data : List Debate) (counts : CounterMap) : List EnrichedDebate :=
  data.map fun d => { id := d.id, topic := d.topic, selectionCount := lookupCount counts d.id }

/-- The `ngOnInit` subscribe callback receiving the fetched list: read the
counter map, enrich, and store the result in the component. -/
def ngOnInitReceive (data : List Debate) (app : App) : Except JsError App :=
  match getDebateCounts app.storage with
  | .error e => .error e
  | .ok counts => .ok { app with debates := enrichDebates data counts }

/-! ### Correctness of the counter-map codec -/

/-- The string built from a character list has exactly those characters. -/
theorem toList_mk (l : List Char) : (String.mk l).toList = l := rfl

/-- `natToCharsAux` computes the base-10 digit characters (via `Nat.digits`)
as soon as the fuel covers the input. -/
theorem natToCharsAux_eq_digits (fuel : Nat) : ∀ n : Nat, n ≤ fuel →
    natToCharsAux fuel n = ((Nat.digits 10 n).map digitToChar).reverse := by
  induction fuel with
  | zero =>
    intro n hn
    interval_cases n
    simp [natToCharsAux]
  | succ fuel ih =>
    intro n hn
    match n with
    | 0 => simp [natToCharsAux]
    | m + 1 =>
      rw [natToCharsAux, ih ((m + 1) / 10) (by omega),
        Nat.digits_def' (by norm_num : (1 : Nat) < 10) (Nat.succ_pos m)]
      simp

/-- `natToChars` in terms of `Nat.digits`, for nonzero input. -/
theorem natToChars_eq_digits (n : Nat) (hn : n ≠ 0) :
    natToChars n = ((Nat.digits 10 n).map digitToChar).reverse := by
  rw [natToChars, if_neg hn]
  exact natToCharsAux_eq_digits n n le_rfl

/-- Digit characters are digits. -/
theorem digitToChar_isDigit (d : Nat) (hd : d < 10) : (digitToChar d).isDigit = true := by
  interval_cases d <;> decide

/-- `charToDigit` inverts `digitToChar` on actual digits. -/
theorem charToDigit_digitToChar (d : Nat) (hd : d < 10) : charToDigit (digitToChar d) = d := by
  interval_cases d <;> decide

/-- A nonzero digit does not render as the zero character. -/
theorem digitToChar_ne_zero_char (d : Nat) (hd : d < 10) (hd0 : d ≠ 0) :
    digitToChar d ≠ '0' := by
  interval_cases d
  · exact absurd rfl hd0
  all_goals decide

/-- Every character of a rendered number is a digit. -/
theorem natToChars_allDigits (n : Nat) : ∀ c ∈ natToChars n, c.isDigit = true := by
  by_cases hn : n = 0
  · subst hn
    intro c hc
    simp [natToChars] at hc
    subst hc
    decide
  · rw [natToChars_eq_digits n hn]
    intro c hc
    rw [List.mem_reverse, List.mem_map] at hc
    obtain ⟨d, hd, rfl⟩ := hc
    exact digitToChar_isDigit d (Nat.digits_lt_base (by norm_num) hd)

/-- A rendered number has at least one character. -/
theorem natToChars_ne_nil (n : Nat) : natToChars n ≠ [] := by
  by_cases hn : n = 0
  · subst hn
    simp [natToChars]
  · rw [natToChars_eq_digits n hn]
    simp [Nat.digits_ne_nil_iff_ne_zero.mpr hn]

/-- Folding the decimal digits (most significant first) recovers the value,
relative to any accumulator. -/
theorem foldl_digit_chars (L : List Nat) (hL : ∀ d ∈ L, d < 10) : ∀ a : Nat,
    ((L.map digitToChar).reverse).foldl (fun x c => x * 10 + charToDigit c) a
      = a * 10 ^ L.length + Nat.ofDigits 10 L := by
  induction L with
  | nil =>
    intro a
    simp [Nat.ofDigits_nil]
  | cons d L' ih =>
    intro a
    have hd : d < 10 := hL d (List.mem_cons_self d L')
    have hL' : ∀ x ∈ L', x < 10 := fun x hx => hL x (List.mem_cons_of_mem d hx)
    simp only [List.map_cons, List.reverse_cons, List.foldl_append, List.foldl_cons,
      List.foldl_nil, List.length_cons]
    rw [ih hL' a, charToDigit_digitToChar d hd, Nat.ofDigits_cons, pow_succ]
    ring

/-- Reading back the rendered digit run gives the number. -/
theorem charsToNat_natToChars (n : Nat) : charsToNat (natToChars n) = n := by
  by_cases hn : n = 0
  · subst hn
    decide
  · rw [natToChars_eq_digits n hn]
    have h := foldl_digit_chars (Nat.digits 10 n)
      (fun d hd => Nat.digits_lt_base (by norm_num) hd) 0
    simpa [charsToNat, Nat.ofDigits_digits] using h

/-- A multi-character rendering never starts with the zero character (no
leading zeros, as JSON requires). -/
theorem natToChars_head_ne_zero (n : Nat) (c c' : Char) (cs : List Char)
    (h : natToChars n = c :: c' :: cs) : c ≠ '0' := by
  by_cases hn : n = 0
  · subst hn
    simp [natToChars] at h
  · rw [natToChars_eq_digits n hn] at h
    have hne : Nat.digits 10 n ≠ [] := Nat.digits_ne_nil_iff_ne_zero.mpr hn
    have hhead : ((Nat.digits 10 n).map digitToChar).reverse.head? = some c := by
      rw [h]
      rfl
    rw [List.head?_reverse, List.getLast?_map, List.getLast?_eq_getLast _ hne] at hhead
    have hc : digitToChar ((Nat.digits 10 n).getLast hne) = c := by
      simpa using hhead
    rw [← hc]
    exact digitToChar_ne_zero_char _
      (Nat.digits_lt_base (by norm_num) (List.getLast_mem hne))
      (Nat.getLast_digit_ne_zero 10 hn)

/-- The input shapes at which a digit run certainly ends: an empty remainder
or one that does not begin with a digit. -/
def headNotDigit : List Char → Prop
  | [] => True
  | c :: _ => c.isDigit = false

/-- `splitDigits` consumes exactly a leading digit run, leaving a remainder
that starts with no digit. -/
theorem splitDigits_append (ds rest : List Char) (hds : ∀ c ∈ ds, c.isDigit = true)
    (hrest : headNotDigit rest) : splitDigits (ds ++ rest) = (ds, rest) := by
  induction ds with
  | nil =>
    simp only [List.nil_append]
    match rest with
    | [] => rfl
    | c :: tl =>
      have hc : c.isDigit = false := hrest
      simp [splitDigits, hc]
  | cons c tl ih =>
    have hc : c.isDigit = true := hds c (List.mem_cons_self c tl)
    have htl := ih (fun x hx => hds x (List.mem_cons_of_mem c hx))
    simp [splitDigits, hc, htl]

/-- `parseNatToken` inverts the decimal rendering, whatever follows it, as
long as the remainder starts with no digit. -/
theorem parseNatToken_natToChars (n : Nat) (rest : List Char) (hrest : headNotDigit rest) :
    parseNatToken (natToChars n ++ rest) = some (n, rest) := by
  have hsplit := splitDigits_append (natToChars n) rest (natToChars_allDigits n) hrest
  have hval := charsToNat_natToChars n
  match hshape : natToChars n with
  | [] => exact absurd hshape (natToChars_ne_nil n)
  | [d] =>
    rw [hshape] at hsplit hval
    unfold parseNatToken
    rw [hsplit]
    have hd : charToDigit d = n := by simpa [charsToNat] using hval
    simp [hd]
  | d :: d' :: ds =>
    have hd0 : d ≠ '0' := natToChars_head_ne_zero n d d' ds hshape
    rw [hshape] at hsplit hval
    unfold parseNatToken
    rw [hsplit]
    simp [hd0, hval]

/-- `parseEntry` inverts `stringifyEntry`, as long as the remainder starts
with no digit. -/
theorem parseEntry_stringifyEntry (e : Nat × Nat) (rest : List Char)
    (hrest : headNotDigit rest) :
    parseEntry (stringifyEntry e ++ rest) = some (e, rest) := by
  obtain ⟨k, v⟩ := e
  have h1 : parseNatToken (natToChars k ++ ('"' :: (':' :: (natToChars v ++ rest))))
      = some (k, '"' :: (':' :: (natToChars v ++ rest))) :=
    parseNatToken_natToChars k _ rfl
  have h2 : parseNatToken (natToChars v ++ rest) = some (v, rest) :=
    parseNatToken_natToChars v rest hrest
  simp only [stringifyEntry, List.cons_append, List.append_assoc]
  simp [parseEntry, h1, h2]

/-- Every member list renders to at least one character per member. -/
theorem stringifyEntries_length_le (m : CounterMap) :
    m.length ≤ (stringifyEntries m).length := by
  induction m with
  | nil => simp [stringifyEntries]
  | cons e m' ih =>
    match m' with
    | [] => simp [stringifyEntries, stringifyEntry]
    | e' :: m'' =>
      simp only [stringifyEntries, List.length_cons, List.length_append] at ih ⊢
      omega

/-- A rendered nonempty member list starts with a quote character. -/
theorem stringifyEntries_cons_shape (e : Nat × Nat) (m' : CounterMap) :
    ∃ t, stringifyEntries (e :: m') = '"' :: t := by
  match m' with
  | [] => exact ⟨_, rfl⟩
  | e' :: m'' => exact ⟨_, rfl⟩

/-- `parseEntriesAux` inverts `stringifyEntries` followed by the closing
brace, given enough fuel. -/
theorem parseEntriesAux_stringifyEntries :
    ∀ (m : CounterMap) (fuel : Nat), m ≠ [] → m.length ≤ fuel →
      parseEntriesAux fuel (stringifyEntries m ++ ['}']) = some (m, []) := by
  intro m
  induction m with
  | nil =>
    intro fuel h _
    exact absurd rfl h
  | cons e m' ih =>
    intro fuel _ hlen
    match fuel with
    | 0 => simp at hlen
    | fuel + 1 =>
      match m' with
      | [] =>
        have he := parseEntry_stringifyEntry e ['}'] rfl
        simp [stringifyEntries, parseEntriesAux, he]
      | e' :: m'' =>
        have he := parseEntry_stringifyEntry e
          (',' :: (stringifyEntries (e' :: m'') ++ ['}'])) rfl
        have hrec := ih fuel (List.cons_ne_nil e' m'') (by simp at hlen ⊢; omega)
        simp only [stringifyEntries, List.append_assoc, List.cons_append]
        simp [parseEntriesAux, he, hrec]

/-- The codec round-trip: parsing a stringified counter map recovers it. -/
theorem parseCounts_stringifyCounts (m : CounterMap) :
    parseCounts (stringifyCounts m) = some m := by
  match m with
  | [] => rfl
  | e :: m' =>
    have hne : stringifyEntries (e :: m') ++ ['}'] ≠ ['}'] := by
      obtain ⟨t, ht⟩ := stringifyEntries_cons_shape e m'
      simp [ht]
    have hle := stringifyEntries_length_le (e :: m')
    have hp := parseEntriesAux_stringifyEntries (e :: m')
      ((stringifyEntries (e :: m')).length + 1 + 1) (List.cons_ne_nil e m')
      (by simp only [List.length_cons] at hle ⊢; omega)
    simp [parseCounts, stringifyCounts, toList_mk, hne, hp]

/-- A stringified counter map is never the empty string. -/
theorem stringifyCounts_ne_empty (m : CounterMap) : stringifyCounts m ≠ "" := by
  intro h
  have h2 : '{' :: (stringifyEntries m ++ ['}']) = ([] : List Char) :=
    congrArg String.data h
  exact List.cons_ne_nil _ _ h2

/-! ### Behaviour of the storage and component operations -/

/-- Reading the counters after storing a parsable value yields its parse. -/
theorem getDebateCounts_eq_of_parse (st : LocalStorage) (s : String) (m : CounterMap)
    (hst : st "debateCounts" = some s) (hne : s ≠ "") (hs : parseCounts s = some m) :
    getDebateCounts st = .ok m := by
  unfold getDebateCounts
  rw [hst]
  simp [hne, hs]

/-- Reading the counters right after `incrementDebateCount` stored a
stringified map yields that map back. -/
theorem getDebateCounts_setItem_stringify (st : LocalStorage) (m : CounterMap) :
    getDebateCounts (setItem "debateCounts" (stringifyCounts m) st) = .ok m :=
  getDebateCounts_eq_of_parse _ _ m rfl (stringifyCounts_ne_empty m)
    (parseCounts_stringifyCounts m)

/-- Looking up the key just set gives the value just written. -/
theorem lookupCount_setCount_self (m : CounterMap) (k v : Nat) :
    lookupCount (setCount m k v) k = v := by
  induction m with
  | nil => simp [setCount, lookupCount]
  | cons e rest ih =>
    obtain ⟨k', v'⟩ := e
    by_cases h : k' = k
    · subst h
      simp [setCount, lookupCount]
    · simp [setCount, lookupCount, h, ih]

/-- Updating the count of an id that occurs nowhere in the list changes
nothing. -/
theorem updateFirstCount_of_not_mem (l : List EnrichedDebate) (i c : Nat)
    (h : ∀ e ∈ l, e.id ≠ i) : updateFirstCount l i c = l := by
  induction l with
  | nil => rfl
  | cons d ds ih =>
    have hd : d.id ≠ i := h d (List.mem_cons_self d ds)
    simp [updateFirstCount, hd, ih (fun e he => h e (List.mem_cons_of_mem d he))]

/-- The code-unit order on character lists is asymmetric. -/
theorem charListLt_asymm (xs : List Char) :
    ∀ ys, charListLt xs ys = true → charListLt ys xs = false := by
  induction xs with
  | nil =>
    intro ys h
    match ys with
    | [] => simp [charListLt] at h
    | y :: ys' => rfl
  | cons x xs' ih =>
    intro ys h
    match ys with
    | [] => simp [charListLt] at h
    | y :: ys' =>
      by_cases hxy : x < y
      · have hyx : ¬ y < x := lt_asymm hxy
        simp [charListLt, hxy, hyx]
      · by_cases hyx : y < x
        · simp [charListLt, hxy, hyx] at h
        · have hrec := ih ys' (by simpa [charListLt, hxy, hyx] using h)
          simp [charListLt, hxy, hyx, hrec]

/-- Character lists with neither strictly below the other are equal. -/
theorem charListLt_both_false (xs : List Char) :
    ∀ ys, charListLt xs ys = false → charListLt ys xs = false → xs = ys := by
  induction xs with
  | nil =>
    intro ys h1 _
    match ys with
    | [] => rfl
    | y :: ys' => simp [charListLt] at h1
  | cons x xs' ih =>
    intro ys h1 h2
    match ys with
    | [] => simp [charListLt] at h2
    | y :: ys' =>
      by_cases hxy : x < y
      · simp [charListLt, hxy] at h1
      · by_cases hyx : y < x
        · simp [charListLt, hyx] at h2
        · have hx : x = y := le_antisymm (not_lt.mp hyx) (not_lt.mp hxy)
          have hrec := ih ys' (by simpa [charListLt, hxy, hyx] using h1)
            (by simpa [charListLt, hxy, hyx] using h2)
          rw [hx, hrec]

/-- The two-element sort does not care which name came first. -/
theorem sortPair_comm (a b : String) : sortPair a b = sortPair b a := by
  unfold sortPair
  cases hba : strLtJS b a
  · cases hab : strLtJS a b
    · have hdata : a.toList = b.toList := charListLt_both_false a.toList b.toList hab hba
      have hab2 : a = b := by
        cases a
        cases b
        exact congrArg String.mk hdata
      rw [hab2]
    · simp
  · have hab : strLtJS a b = false := charListLt_asymm b.toList a.toList hba
    simp [hab]

/-- `incrementDebateCount` under a readable counter map: the new map is
stored and the first matching list entry is refreshed. -/
theorem incrementDebateCount_eq (i : Nat) (a : App) (m : CounterMap)
    (h : getDebateCounts a.storage = .ok m) :
    incrementDebateCount i a = .ok { a with
      storage := setItem "debateCounts"
        (stringifyCounts (setCount m i (lookupCount m i + 1))) a.storage,
      debates := updateFirstCount a.debates i (lookupCount m i + 1) } := by
  unfold incrementDebateCount
  rw [h]

/-- `openSetup` under a readable counter map: selection plus increment. -/
theorem openSetup_eq (d : EnrichedDebate) (app : App) (m : CounterMap)
    (h : getDebateCounts app.storage = .ok m) :
    openSetup d app = .ok { app with
      selectedDebate := some d,
      storage := setItem "debateCounts"
        (stringifyCounts (setCount m d.id (lookupCount m d.id + 1))) app.storage,
      debates := updateFirstCount app.debates d.id (lookupCount m d.id + 1) } := by
  unfold openSetup
  exact incrementDebateCount_eq d.id { app with selectedDebate := some d } m h

/-- Reading one id out of a readable counter map. -/
theorem readCount_eq (st : LocalStorage) (i : Nat) (m : CounterMap)
    (h : getDebateCounts st = .ok m) : readCount st i = .ok (lookupCount m i) := by
  unfold readCount
  rw [h]

/-- `startDebate` when the guard passes: the five writes and the navigation,
spelled out. -/
theorem startDebate_eq (app : App) (sel : EnrichedDebate)
    (hsel : app.selectedDebate = some sel)
    (ha : jsTrim app.debaterA ≠ "") (hb : jsTrim app.debaterB ≠ "") :
    startDebate app = { app with
      storage := setItem "currentSessionId"
        (natToString sel.id ++ "_" ++ joinUnderscore (sortPair app.debaterA app.debaterB))
        (setItem "debateTopic" sel.topic
          (setItem "username" app.debaterA
            (setItem "debaterB" app.debaterB
              (setItem "debaterA" app.debaterA app.storage)))),
      navLog := app.navLog ++ [[RouteSeg.str "/debates", RouteSeg.num sel.id]] } := by
  unfold startDebate
  rw [hsel]
  simp [ha, hb]

/-! ### Concrete fixtures used by the witnesses -/

/-- A selectable debate with id 5 and topic `X`. -/
def debate5 : EnrichedDebate := { id := 5, topic := "X", selectionCount := 0 }

/-- A component state with `debate5` selected, names Alice and Bob, empty
storage and no navigation yet. -/
def appAlice : App :=
  { debates := [], viewMode := .grid, selectedDebate := some debate5,
    debaterA := "Alice", debaterB := "Bob", storage := emptyStorage, navLog := [] }

/-- `appAlice` with a whitespace-only first name. -/
def appBlank : App := { appAlice with debaterA := "   " }

/-- `appAlice` with surrounding whitespace kept in the first name. -/
def appSpacey : App := { appAlice with debaterA := " Alice " }

/-- `appAlice` with a one-entry in-memory debates list (id 3 only). -/
def appWithList : App :=
  { appAlice with debates := [{ id := 3, topic := "A", selectionCount := 1 }] }

/-- `appAlice` with an unparsable string stored under the counters key. -/
def appBadStore : App := { appAlice with storage := setItem "debateCounts" "x" emptyStorage }

/-- A debate whose id occurs in no fixture list. -/
def debate7 : EnrichedDebate := { id := 7, topic := "Y", selectionCount := 4 }

/-- The list the fixture fetch returns: ids 3 and 5. -/
def fetched : List Debate := [{ id := 3, topic := "A" }, { id := 5, topic := "B" }]

/-- `appAlice` with the counter map mapping id 3 to 2 stored. -/
def appStored : App :=
  { appAlice with storage := setItem "debateCounts" (stringifyCounts [(3, 2)]) emptyStorage }

/-! ### The claims -/

/-- C1, counterexample to the claim as stated: the string `x` cannot be
parsed as a JSON counter map, yet reading the counters with it stored does
not yield the empty mapping; it surfaces a parse error, both on a direct
read and in the initialization enrichment and in `openSetup`'s increment. -/
theorem unparsable_counts_counterexample :
    parseCounts "x" = none ∧
    getDebateCounts appBadStore.storage = .error .parseError ∧
    ngOnInitReceive fetched appBadStore = .error .parseError ∧
    openSetup debate5 appBadStore = .error .parseError :=
  ⟨rfl, rfl, rfl, rfl⟩

/-- C1, amended: an absent `debateCounts` key (or an empty string, which JS
truthiness also sends to the default) reads as the empty mapping, but a
non-empty stored string that cannot be parsed makes the read fail with a
propagated parse error instead of being treated as absent. -/
theorem getDebateCounts_unparsable_raises (st : LocalStorage) (raw : String)
    (hst : st "debateCounts" = some raw) (hraw : raw ≠ "")
    (hparse : parseCounts raw = none) :
    getDebateCounts st = .error .parseError := by
  unfold getDebateCounts
  rw [hst]
  simp [hraw, hparse]

/-- C1 witness: the amended claim at the concrete unparsable store. -/
theorem getDebateCounts_unparsable_raises_witness :
    getDebateCounts appBadStore.storage = .error .parseError :=
  getDebateCounts_unparsable_raises appBadStore.storage "x" rfl (by decide) rfl

/-- C2: from any readable prior counter-map state (absent reads as the empty
map), `openSetup d` succeeds and the stored counter of `d.id` reads back as
the previous value plus one, and a second `openSetup d` makes it the
previous value plus two. -/
theorem openSetup_adds_one_then_two (d : EnrichedDebate) (app : App) (m : CounterMap)
    (h : getDebateCounts app.storage = .ok m) :
    ∃ app1 app2,
      openSetup d app = .ok app1 ∧
      readCount app1.storage d.id = .ok (lookupCount m d.id + 1) ∧
      openSetup d app1 = .ok app2 ∧
      readCount app2.storage d.id = .ok (lookupCount m d.id + 2) := by
  have h1 := openSetup_eq d app m h
  have hget1 : getDebateCounts (setItem "debateCounts"
      (stringifyCounts (setCount m d.id (lookupCount m d.id + 1))) app.storage)
      = .ok (setCount m d.id (lookupCount m d.id + 1)) :=
    getDebateCounts_setItem_stringify _ _
  have h2 := openSetup_eq d
    { app with
      selectedDebate := some d,
      storage := setItem "debateCounts"
        (stringifyCounts (setCount m d.id (lookupCount m d.id + 1))) app.storage,
      debates := updateFirstCount app.debates d.id (lookupCount m d.id + 1) }
    (setCount m d.id (lookupCount m d.id + 1)) hget1
  refine ⟨_, _, h1, ?_, h2, ?_⟩
  · dsimp only
    rw [readCount_eq _ _ _ hget1, lookupCount_setCount_self]
  · dsimp only
    rw [readCount_eq _ _ _ (getDebateCounts_setItem_stringify _ _),
      lookupCount_setCount_self, lookupCount_setCount_self]

/-- C2 witness: with empty storage, the counter of debate 5 reads 1 after
one `openSetup` and 2 after another. -/
theorem openSetup_adds_one_then_two_witness :
    ∃ app1 app2,
      openSetup debate5 appAlice = .ok app1 ∧
      readCount app1.storage debate5.id = .ok 1 ∧
      openSetup debate5 app1 = .ok app2 ∧
      readCount app2.storage debate5.id = .ok 2 :=
  openSetup_adds_one_then_two debate5 appAlice [] rfl

/-- C3: with a debate selected and both names non-blank, the stored session
id is unchanged by swapping the two name fields. -/
theorem startDebate_sessionId_symmetric (app : App) (sel : EnrichedDebate)
    (hsel : app.selectedDebate = some sel)
    (ha : jsTrim app.debaterA ≠ "") (hb : jsTrim app.debaterB ≠ "") :
    (startDebate app).storage "currentSessionId"
      = (startDebate { app with debaterA := app.debaterB, debaterB := app.debaterA }).storage
          "currentSessionId" := by
  rw [startDebate_eq app sel hsel ha hb,
    startDebate_eq { app with debaterA := app.debaterB, debaterB := app.debaterA }
      sel hsel hb ha]
  show some (natToString sel.id ++ "_"
      ++ joinUnderscore (sortPair app.debaterA app.debaterB))
    = some (natToString sel.id ++ "_"
      ++ joinUnderscore (sortPair app.debaterB app.debaterA))
  rw [sortPair_comm]

/-- C3 witness: names Alice and Bob for debate id 5 give the same stored
session id in either order, namely `5_Alice_Bob`. -/
theorem startDebate_sessionId_symmetric_witness :
    (startDebate appAlice).storage "currentSessionId"
      = (startDebate { appAlice with debaterA := appAlice.debaterB, debaterB := appAlice.debaterA }).storage
          "currentSessionId" ∧
    (startDebate appAlice).storage "currentSessionId" = some "5_Alice_Bob" :=
  ⟨startDebate_sessionId_symmetric appAlice debate5 rfl (by decide) (by decide), rfl⟩

/-- C4: with no debate selected, or either name blank after trimming,
`startDebate` returns the state unchanged: no storage write, no navigation,
no component-field change. -/
theorem startDebate_guard_noop (app : App)
    (h : app.selectedDebate = none ∨ jsTrim app.debaterA = "" ∨ jsTrim app.debaterB = "") :
    startDebate app = app := by
  unfold startDebate
  split
  · rfl
  · split
    · rfl
    · rename_i sel hsel hguard
      rcases h with h | h
      · rw [h] at hsel
        cases hsel
      · exact absurd h hguard

/-- C4 witness: a whitespace-only first name makes `startDebate` a no-op
even with a debate selected. -/
theorem startDebate_guard_noop_witness : startDebate appBlank = appBlank :=
  startDebate_guard_noop appBlank (Or.inr (Or.inl (by decide)))

/-- C5: when the stored counter map is readable, the initialization
enrichment succeeds, keeps the fetched ids and topics in order, and gives
every resulting entry the stored count of its id (0 when none is stored). -/
theorem ngOnInit_enrichment (data : List Debate) (app : App) (m : CounterMap)
    (h : getDebateCounts app.storage = .ok m) :
    ∃ app', ngOnInitReceive data app = .ok app' ∧
      app'.debates.map (fun e => (e.id, e.topic)) = data.map (fun d => (d.id, d.topic)) ∧
      ∀ e ∈ app'.debates, e.selectionCount = lookupCount m e.id := by
  refine ⟨{ app with debates := enrichDebates data m }, ?_, ?_, ?_⟩
  · unfold ngOnInitReceive
    rw [h]
  · simp [enrichDebates, List.map_map, Function.comp]
  · intro e he
    simp only [enrichDebates, List.mem_map] at he
    obtain ⟨d, hd, rfl⟩ := he
    rfl

/-- C5 witness: with the map sending id 3 to 2 stored, fetching ids 3 and 5
yields counts 2 and 0. -/
theorem ngOnInit_enrichment_witness :
    ∃ app', ngOnInitReceive fetched appStored = .ok app' ∧
      app'.debates.map (fun e => (e.id, e.topic)) = fetched.map (fun d => (d.id, d.topic)) ∧
      ∀ e ∈ app'.debates, e.selectionCount = lookupCount [(3, 2)] e.id :=
  ngOnInit_enrichment fetched appStored [(3, 2)] rfl

/-- C6: a successful `startDebate` writes exactly the five session keys
(`username` duplicating debater A, `debateTopic` the selected topic), leaves
every other storage key unchanged, and asks the router for
`['/debates', id]`. -/
theorem startDebate_success_effects (app : App) (sel : EnrichedDebate)
    (hsel : app.selectedDebate = some sel)
    (ha : jsTrim app.debaterA ≠ "") (hb : jsTrim app.debaterB ≠ "") :
    (startDebate app).storage "debaterA" = some app.debaterA ∧
    (startDebate app).storage "debaterB" = some app.debaterB ∧
    (startDebate app).storage "username" = some app.debaterA ∧
    (startDebate app).storage "debateTopic" = some sel.topic ∧
    (startDebate app).storage "currentSessionId"
      = some (natToString sel.id ++ "_"
          ++ joinUnderscore (sortPair app.debaterA app.debaterB)) ∧
    (∀ k, k ≠ "debaterA" → k ≠ "debaterB" → k ≠ "username" → k ≠ "debateTopic" →
      k ≠ "currentSessionId" → (startDebate app).storage k = app.storage k) ∧
    (startDebate app).navLog
      = app.navLog ++ [[RouteSeg.str "/debates", RouteSeg.num sel.id]] := by
  rw [startDebate_eq app sel hsel ha hb]
  refine ⟨rfl, rfl, rfl, rfl, rfl, ?_, rfl⟩
  intro k h1 h2 h3 h4 h5
  simp [setItem, h1, h2, h3, h4, h5]

/-- C6 witness: the five writes, the frame over other keys, and the
navigation, for Alice and Bob on debate 5. -/
theorem startDebate_success_effects_witness :
    (startDebate appAlice).storage "debaterA" = some "Alice" ∧
    (startDebate appAlice).storage "debaterB" = some "Bob" ∧
    (startDebate appAlice).storage "username" = some "Alice" ∧
    (startDebate appAlice).storage "debateTopic" = some "X" ∧
    (startDebate appAlice).storage "currentSessionId" = some "5_Alice_Bob" ∧
    (∀ k, k ≠ "debaterA" → k ≠ "debaterB" → k ≠ "username" → k ≠ "debateTopic" →
      k ≠ "currentSessionId" → (startDebate appAlice).storage k = appAlice.storage k) ∧
    (startDebate appAlice).navLog = [[RouteSeg.str "/debates", RouteSeg.num 5]] :=
  startDebate_success_effects appAlice debate5 rfl (by decide) (by decide)

/-- C7: `closeSetup` clears the selection and changes nothing else: neither
the list, the view mode, the name fields, any storage key (the counters in
particular), nor the navigation log. -/
theorem closeSetup_only_clears_selection (app : App) :
    (closeSetup app).selectedDebate = none ∧
    (closeSetup app).debates = app.debates ∧
    (closeSetup app).viewMode = app.viewMode ∧
    (closeSetup app).debaterA = app.debaterA ∧
    (closeSetup app).debaterB = app.debaterB ∧
    (closeSetup app).storage = app.storage ∧
    (closeSetup app).storage "debateCounts" = app.storage "debateCounts" ∧
    (closeSetup app).navLog = app.navLog :=
  ⟨rfl, rfl, rfl, rfl, rfl, rfl, rfl, rfl⟩

/-- C8: `setViewMode` collapses to the final call: list-then-grid equals
grid alone, repeating a mode is idempotent, and the last call fixes the
view mode. -/
theorem setViewMode_last_call_wins (app : App) :
    setViewMode .grid (setViewMode .list app) = setViewMode .grid app ∧
    (∀ mo : ViewMode, setViewMode mo (setViewMode mo app) = setViewMode mo app) ∧
    (∀ m1 m2 : ViewMode, (setViewMode m2 (setViewMode m1 app)).viewMode = m2) :=
  ⟨rfl, fun _ => rfl, fun _ _ => rfl⟩

/-- C9: a successful `startDebate` persists the raw, untrimmed field values:
the stored names, the `username` alias and the names sorted into the session
id are the original strings, whitespace included. -/
theorem startDebate_stores_raw_names (app : App) (sel : EnrichedDebate)
    (hsel : app.selectedDebate = some sel)
    (ha : jsTrim app.debaterA ≠ "") (hb : jsTrim app.debaterB ≠ "") :
    (startDebate app).storage "debaterA" = some app.debaterA ∧
    (startDebate app).storage "debaterB" = some app.debaterB ∧
    (startDebate app).storage "username" = some app.debaterA ∧
    (startDebate app).storage "currentSessionId"
      = some (natToString sel.id ++ "_"
          ++ joinUnderscore (sortPair app.debaterA app.debaterB)) := by
  rw [startDebate_eq app sel hsel ha hb]
  exact ⟨rfl, rfl, rfl, rfl⟩

/-- C9 witness: the name ` Alice ` passes the trimmed guard but is stored
with its whitespace, in `debaterA`, in `username` and inside the session
id. -/
theorem startDebate_stores_raw_names_witness :
    (startDebate appSpacey).storage "debaterA" = some " Alice " ∧
    (startDebate appSpacey).storage "debaterB" = some "Bob" ∧
    (startDebate appSpacey).storage "username" = some " Alice " ∧
    (startDebate appSpacey).storage "currentSessionId" = some "5_ Alice _Bob" :=
  startDebate_stores_raw_names appSpacey debate5 rfl (by decide) (by decide)

/-- C10: opening setup for a debate absent from the in-memory list (under a
readable counter map) still stores the incremented counter and selects the
debate, and the list survives entry-for-entry. -/
theorem openSetup_outside_list (d : EnrichedDebate) (app : App) (m : CounterMap)
    (hm : getDebateCounts app.storage = .ok m)
    (hnot : ∀ e ∈ app.debates, e.id ≠ d.id) :
    ∃ app', openSetup d app = .ok app' ∧
      app'.storage "debateCounts"
        = some (stringifyCounts (setCount m d.id (lookupCount m d.id + 1))) ∧
      readCount app'.storage d.id = .ok (lookupCount m d.id + 1) ∧
      app'.selectedDebate = some d ∧
      app'.debates = app.debates := by
  refine ⟨_, openSetup_eq d app m hm, rfl, ?_, rfl, ?_⟩
  · dsimp only
    rw [readCount_eq _ _ _ (getDebateCounts_setItem_stringify _ _),
      lookupCount_setCount_self]
  · dsimp only
    exact updateFirstCount_of_not_mem _ _ _ hnot

/-- C10 witness: debate 7 is absent from the one-entry list, yet its counter
is written and read back as 1, it becomes selected, and the list entry for
id 3 is untouched. -/
theorem openSetup_outside_list_witness :
    ∃ app', openSetup debate7 appWithList = .ok app' ∧
      app'.storage "debateCounts" = some (stringifyCounts [(7, 1)]) ∧
      readCount app'.storage 7 = .ok 1 ∧
      app'.selectedDebate = some debate7 ∧
      app'.debates = [{ id := 3, topic := "A", selectionCount := 1 }] :=
  openSetup_outside_list debate7 appWithList [] rfl (by decide)

end DebatAI
